import Mathlib

/-!
# Verification of the todo2 record service

A shallow embedding of the Go todo service (`services/todo_service.go`,
`handlers/todo_handler.go`, `internal/models/todo.go`) and proofs about it.

Go strings are modelled as `List Char` (sequences of Unicode code points);
Go `len` on a string is the UTF-8 byte length `utf8Len`. The persistence
provider (GORM/PostgreSQL) is modelled as a list of records, newest first,
with each service operation returning its result, the successor store, and
the trace of provider interactions it issued.
-/

namespace Todo2

/-- Models Go's `unicode.IsSpace`: true exactly on code points with the
Unicode White_Space property (the table in Go's `unicode` package:
U+0009–U+000D, U+0020, U+0085, U+00A0, U+1680, U+2000–U+200A, U+2028,
U+2029, U+202F, U+205F, U+3000). -/
def goIsSpace (c : Char) : Bool :=
  let n := c.toNat
  (decide (9 ≤ n) && decide (n ≤ 13)) || decide (n = 32) ||
  decide (n = 0x85) || decide (n = 0xA0) || decide (n = 0x1680) ||
  (decide (0x2000 ≤ n) && decide (n ≤ 0x200A)) ||
  decide (n = 0x2028) || decide (n = 0x2029) ||
  decide (n = 0x202F) || decide (n = 0x205F) || decide (n = 0x3000)

/-- Models Go's `strings.TrimSpace`: remove leading and trailing code points
satisfying `unicode.IsSpace`, keeping everything in between. -/
def trimSpace (l : List Char) : List Char :=
  ((l.dropWhile goIsSpace).reverse.dropWhile goIsSpace).reverse

/-- UTF-8 byte count of one code point (what Go `len` adds per rune). -/
def utf8CharLen (c : Char) : Nat :=
  if c.toNat < 0x80 then 1
  else if c.toNat < 0x800 then 2
  else if c.toNat < 0x10000 then 3
  else 4

/-- Models Go's `len` on a string: total UTF-8 byte length. -/
def utf8Len (l : List Char) : Nat :=
  (l.map utf8CharLen).sum

/-- The stored record (Go struct `models.Todo` in `internal/models`). Identifiers and timestamps
are abstracted to `Nat` (UUID generation and the wall clock live outside
the service logic). -/
structure Todo where
  id : Nat
  description : List Char
  completed : Bool
  createdAt : Nat
  updatedAt : Nat
  deriving DecidableEq, Repr

/-- The sentinel errors of `services/errors.go` and
`internal/models` (`ErrDescriptionTooLong`), plus `internal` for wrapped
provider failures. -/
inductive ServiceError where
  | emptyDescription
  | descriptionTooLong
  | invalidInput
  | todoNotFound
  | internal
  deriving DecidableEq, Repr

/-- One interaction with the persistence provider: a read (GORM `First`,
`Count`, `Find`) or a write (`Create`, `Updates`, `Delete`). -/
inductive PEvent where
  | read
  | write
  deriving DecidableEq, Repr

/-- The provider store: all durable records, newest first. -/
abbrev Store := List Todo

/-- GORM `First(&todo, "id = ?", id)`: point lookup by identifier. -/
def findById (s : Store) (id : Nat) : Option Todo :=
  s.find? (fun t => t.id == id)

namespace todoService

/-- Go method `todoService.Create`: trim the description, reject if the trimmed form
is empty or longer than 500 bytes, otherwise insert a fresh record with
`completed = false` and both timestamps set to now. Returns the result,
the successor store, and the provider-event trace. -/
def Create (store : Store) (now freshId : Nat) (reqDescription : List Char) :
    Except ServiceError Todo × Store × List PEvent :=
  let desc := trimSpace reqDescription
  if desc.isEmpty then
    (.error .emptyDescription, store, [])
  else if 500 < utf8Len desc then
    (.error .descriptionTooLong, store, [])
  else
    let todo : Todo := ⟨freshId, desc, false, now, now⟩
    (.ok todo, todo :: store, [.write])

/-- Go method `todoService.Update`: look the record up, validate the optional new
description (trim, emptiness, 500-byte cap), build the update map, apply
it through the provider only when non-empty (which also refreshes
`updated_at`), then reload and return the record. -/
def Update (store : Store) (now : Nat) (id : Nat)
    (reqDescription : Option (List Char)) (reqCompleted : Option Bool) :
    Except ServiceError Todo × Store × List PEvent :=
  match findById store id with
  | none => (.error .todoNotFound, store, [.read])
  | some _ =>
    let descValidated : Except ServiceError (Option (List Char)) :=
      match reqDescription with
      | none => .ok none
      | some d =>
        let desc := trimSpace d
        if desc.isEmpty then .error .emptyDescription
        else if 500 < utf8Len desc then .error .descriptionTooLong
        else .ok (some desc)
    match descValidated with
    | .error e => (.error e, store, [.read])
    | .ok descUpdate =>
      let hasUpdates := descUpdate.isSome || reqCompleted.isSome
      let store2 : Store :=
        if hasUpdates then
          store.map (fun t =>
            if t.id == id then
              { t with
                description := descUpdate.getD t.description,
                completed := reqCompleted.getD t.completed,
                updatedAt := now }
            else t)
        else store
      let events := if hasUpdates then [PEvent.read, PEvent.write] else [PEvent.read]
      match findById store2 id with
      | none => (.error .internal, store2, events ++ [.read])
      | some t2 => (.ok t2, store2, events ++ [.read])

/-- Go method `todoService.Delete`: issue the provider delete-by-id, then fail with
`ErrTodoNotFound` when it reports zero rows affected. -/
def Delete (store : Store) (id : Nat) :
    Except ServiceError Unit × Store × List PEvent :=
  let remaining := store.filter (fun t => !(t.id == id))
  let rowsAffected := store.countP (fun t => t.id == id)
  if rowsAffected = 0 then
    (.error .todoNotFound, remaining, [.write])
  else
    (.ok (), remaining, [.write])

/-- The `ListTodosResponse` protobuf message. -/
structure ListTodosResponse where
  todos : List Todo
  total : Nat
  limit : Int
  offset : Int
  deriving DecidableEq, Repr

/-- Go method `todoService.List`: clamp the limit into [1, 100] with default 20,
clamp the offset at 0, filter by the optional completed flag, count the
matches, and return the page together with the effective limit/offset. -/
def List (store : Store) (limit offset : Int) (completedFilter : Option Bool) :
    ListTodosResponse × List PEvent :=
  let limit1 := if limit ≤ 0 then 20 else limit
  let limit2 := if limit1 > 100 then 100 else limit1
  let offset2 := if offset < 0 then 0 else offset
  let filtered :=
    match completedFilter with
    | none => store
    | some b => store.filter (fun t => t.completed == b)
  let total := filtered.length
  let page := (filtered.drop offset2.toNat).take limit2.toNat
  (⟨page, total, limit2, offset2⟩, [.read, .read])

end todoService

/-! ## HTTP adaptation layer (`handlers/todo_handler.go`) -/

/-- Modelled from Go's standard library: `fmt.Sscanf(s, "%d", &v)` into an
`int32`. Skips leading blanks, accepts an optional sign followed by at
least one decimal digit, ignores trailing input, and fails when the value
does not fit in an `int32`. Returns `none` exactly when Sscanf reports an
error. -/
def sscanfInt32 (s : String) : Option Int :=
  let l := s.data.dropWhile (fun c => c == ' ' || c == '\t')
  let (neg, rest) :=
    match l with
    | '-' :: r => (true, r)
    | '+' :: r => (false, r)
    | r => (false, r)
  let digits := rest.takeWhile (fun c => c.isDigit)
  if digits.isEmpty then none
  else
    let mag : Nat := digits.foldl (fun acc c => acc * 10 + (c.toNat - 48)) 0
    let v : Int := if neg then -(mag : Int) else (mag : Int)
    if v < -(2 ^ 31) then none
    else if (2 ^ 31 : Int) - 1 < v then none
    else some v

/-- The `ListTodosRequest` protobuf message as the handler fills it in. -/
structure ListTodosRequest where
  limit : Int
  offset : Int
  completed : Option Bool
  deriving DecidableEq, Repr

namespace TodoHandler

/-- Query-parsing part of Go `TodoHandler.List`: start from the defaults
`limit = 20`, `offset = 0`, no filter; overwrite `limit`/`offset` only
when the query parameter is non-empty and scans as an integer; set the
filter only when `completed` is exactly `"true"` or `"false"`. -/
def listRequestOfQuery (limitStr offsetStr completedStr : String) :
    ListTodosRequest :=
  let limit : Int :=
    if limitStr ≠ "" then
      match sscanfInt32 limitStr with
      | some v => v
      | none => 20
    else 20
  let offset : Int :=
    if offsetStr ≠ "" then
      match sscanfInt32 offsetStr with
      | some v => v
      | none => 0
    else 0
  let completed : Option Bool :=
    if completedStr ≠ "" then
      if completedStr = "true" then some true
      else if completedStr = "false" then some false
      else none
    else none
  ⟨limit, offset, completed⟩

/-- Go method `TodoHandler.List`: build the request from the query string and call
the service; a service error would be mapped by `HandleServiceError`,
success is encoded as the JSON response. -/
def List (store : Store) (limitStr offsetStr completedStr : String) :
    Except ServiceError todoService.ListTodosResponse :=
  let req := listRequestOfQuery limitStr offsetStr completedStr
  .ok (todoService.List store req.limit req.offset req.completed).1

end TodoHandler

/-- The invariant the repository's schema asserts of stored rows
(`varchar(500)`, `check:length(trim(description)) > 0` in
`internal/models/todo.go`): the description carries no leading or trailing
whitespace, is non-empty, and fits in 500 bytes. -/
def descriptionWF (d : List Char) : Prop :=
  trimSpace d = d ∧ d ≠ [] ∧ utf8Len d ≤ 500

/-- All records of a store satisfy `descriptionWF`. -/
def storeWF (s : Store) : Prop :=
  ∀ t ∈ s, descriptionWF t.description

/-! ## Helper lemmas -/

theorem trimSpace_eq_rdropWhile (l : List Char) :
    trimSpace l = List.rdropWhile goIsSpace (l.dropWhile goIsSpace) := rfl

theorem trimSpace_eq_nil_of_all_space (l : List Char) (h : l.all goIsSpace) :
    trimSpace l = [] := by
  have h1 : l.dropWhile goIsSpace = [] :=
    List.dropWhile_eq_nil_iff.mpr fun x hx => by
      simpa using List.all_eq_true.mp h x hx
  simp [trimSpace, h1]

theorem trimSpace_idem (l : List Char) :
    trimSpace (trimSpace l) = trimSpace l := by
  rw [trimSpace_eq_rdropWhile, trimSpace_eq_rdropWhile]
  have hA : (List.rdropWhile goIsSpace (l.dropWhile goIsSpace)).dropWhile goIsSpace
      = List.rdropWhile goIsSpace (l.dropWhile goIsSpace) := by
    rw [List.dropWhile_eq_self_iff]
    intro hl
    have hpre := List.rdropWhile_prefix goIsSpace (l.dropWhile goIsSpace)
    have hlen : 0 < (l.dropWhile goIsSpace).length :=
      Nat.lt_of_lt_of_le hl hpre.length_le
    have hget := hpre.getElem (n := 0) hl
    rw [List.get_eq_getElem, hget]
    have hnot := List.dropWhile_get_zero_not (p := goIsSpace) l hlen
    rwa [List.get_eq_getElem] at hnot
  rw [hA, List.rdropWhile_idempotent]

theorem utf8Len_nil : utf8Len [] = 0 := rfl

theorem create_ok_of_valid (store : Store) (now freshId : Nat) (d : List Char)
    (h1 : trimSpace d ≠ []) (h2 : utf8Len (trimSpace d) ≤ 500) :
    todoService.Create store now freshId d
      = (.ok ⟨freshId, trimSpace d, false, now, now⟩,
         (⟨freshId, trimSpace d, false, now, now⟩ : Todo) :: store,
         [.write]) := by
  have e1 : (trimSpace d).isEmpty = false := by
    simpa [List.isEmpty_iff] using h1
  have e2 : ¬ 500 < utf8Len (trimSpace d) := Nat.not_lt.mpr h2
  simp [todoService.Create, e1, e2]

/-! ## Claim theorems -/

/-- C1, counterexample: the input `" a"` has 2 ≤ 500 code points and a
non-whitespace code point, and Create succeeds — but the stored and
returned description is the trimmed `"a"`, not the raw input: leading
whitespace is NOT preserved. -/
theorem create_raw_preservation_counterexample :
    todoService.Create [] 5 0 [' ', 'a']
      = (.ok ⟨0, ['a'], false, 5, 5⟩, [⟨0, ['a'], false, 5, 5⟩], [.write])
    ∧ ([' ', 'a'] : List Char).length ≤ 500
    ∧ goIsSpace 'a' = false
    ∧ (['a'] : List Char) ≠ [' ', 'a'] := by
  refine ⟨rfl, by decide, by decide, by decide⟩

/-- C1, amended: for every description whose trimmed form (leading and
trailing Unicode whitespace removed) is non-empty and at most 500 UTF-8
bytes, Create succeeds, and the stored and returned description is exactly
that trimmed form — internal whitespace and newlines preserved. -/
theorem create_stores_trimmed_description
    (store : Store) (now freshId : Nat) (d : List Char)
    (h1 : trimSpace d ≠ []) (h2 : utf8Len (trimSpace d) ≤ 500) :
    (todoService.Create store now freshId d).1
        = .ok ⟨freshId, trimSpace d, false, now, now⟩
    ∧ (todoService.Create store now freshId d).2.1
        = (⟨freshId, trimSpace d, false, now, now⟩ : Todo) :: store := by
  rw [create_ok_of_valid store now freshId d h1 h2]
  exact ⟨rfl, rfl⟩

/-- Witness for `create_stores_trimmed_description` at the concrete
description `" a b "`. -/
theorem create_stores_trimmed_description_witness :
    (todoService.Create [] 0 0 [' ', 'a', ' ', 'b', ' ']).1
        = .ok ⟨0, trimSpace [' ', 'a', ' ', 'b', ' '], false, 0, 0⟩
    ∧ (todoService.Create [] 0 0 [' ', 'a', ' ', 'b', ' ']).2.1
        = [⟨0, trimSpace [' ', 'a', ' ', 'b', ' '], false, 0, 0⟩] :=
  create_stores_trimmed_description [] 0 0 [' ', 'a', ' ', 'b', ' ']
    (by decide) (by decide)

set_option maxRecDepth 4000 in
/-- C2, counterexample: 167 copies of the euro sign are 167 ≤ 500 code
points on the raw input, so the claim says Create must not fail with
DescriptionTooLong — but the code measures UTF-8 bytes (3 per euro sign,
501 in total) and rejects it. -/
theorem create_length_unit_counterexample :
    (todoService.Create [] 0 0 (List.replicate 167 '€')).1
        = .error .descriptionTooLong
    ∧ (List.replicate 167 '€').length = 167
    ∧ 167 ≤ 500 := by
  refine ⟨rfl, by rw [List.length_replicate], by decide⟩

/-- C2, amended: Create fails with DescriptionTooLong exactly when the
trimmed description is non-empty and its UTF-8 byte length exceeds 500;
in particular it succeeds at exactly 500 bytes (trimmed) and fails at 501
bytes, whatever mixture of multi-byte and ASCII characters is used. -/
theorem create_tooLong_iff (store : Store) (now freshId : Nat) (d : List Char) :
    (todoService.Create store now freshId d).1 = .error .descriptionTooLong
      ↔ trimSpace d ≠ [] ∧ 500 < utf8Len (trimSpace d) := by
  by_cases h1 : trimSpace d = []
  · have e1 : (trimSpace d).isEmpty = true := by simp [List.isEmpty_iff, h1]
    simp [todoService.Create, e1, h1]
  · have e1 : (trimSpace d).isEmpty = false := by
      simpa [List.isEmpty_iff] using h1
    by_cases h2 : 500 < utf8Len (trimSpace d)
    · simp [todoService.Create, e1, h2, h1]
    · simp [todoService.Create, e1, h2]

/-- C3, counterexample: the zero-width space U+200B is not Unicode
whitespace (it lacks the White_Space property, and Go's `unicode.IsSpace`
rejects it), so a description consisting only of U+200B is accepted by
Create rather than failing with EmptyDescription. -/
theorem create_zero_width_space_counterexample :
    (todoService.Create [] 0 0 ['​']).1
        = .ok ⟨0, ['​'], false, 0, 0⟩
    ∧ goIsSpace '​' = false := by
  refine ⟨rfl, by decide⟩

/-- C3, amended: for every description consisting only of code points with
the Unicode White_Space property (empty string, spaces, tabs, newlines,
non-breaking space, …— but not the zero-width space U+200B, which is not
whitespace and is accepted as content), Create fails with
EmptyDescription, and Update with that description on an existing record
fails with EmptyDescription. -/
theorem whitespace_only_description_rejected
    (store : Store) (now freshId id : Nat) (t : Todo) (c : Option Bool)
    (d : List Char) (hall : d.all goIsSpace)
    (hfind : findById store id = some t) :
    (todoService.Create store now freshId d).1 = .error .emptyDescription
    ∧ (todoService.Update store now id (some d) c).1 = .error .emptyDescription := by
  have htrim : trimSpace d = [] := trimSpace_eq_nil_of_all_space d hall
  have e1 : (trimSpace d).isEmpty = true := by simp [List.isEmpty_iff, htrim]
  constructor
  · simp [todoService.Create, e1]
  · simp [todoService.Update, hfind, e1]

/-- Witness for `whitespace_only_description_rejected`: a store holding one
record, a description of a space, a tab and a newline. -/
theorem whitespace_only_description_rejected_witness :
    (todoService.Create [⟨0, ['a'], false, 0, 0⟩] 1 1 [' ', '\t', '\n']).1
        = .error .emptyDescription
    ∧ (todoService.Update [⟨0, ['a'], false, 0, 0⟩] 1 0
          (some [' ', '\t', '\n']) (some true)).1
        = .error .emptyDescription :=
  whitespace_only_description_rejected [⟨0, ['a'], false, 0, 0⟩] 1 1 0
    ⟨0, ['a'], false, 0, 0⟩ (some true) [' ', '\t', '\n']
    (by decide) (by decide)

/-- C4, counterexample: a no-op Update (neither field supplied) at time 9
on a record last touched at time 1 returns the record with `updated_at`
still 1 — the code skips the provider write entirely, so `updated_at` is
NOT refreshed as the claim requires. -/
theorem noop_update_no_refresh_counterexample :
    (todoService.Update [⟨0, ['h', 'i'], false, 1, 1⟩] 9 0 none none).1
        = .ok ⟨0, ['h', 'i'], false, 1, 1⟩
    ∧ (1 : Nat) ≠ 9 := by
  refine ⟨rfl, by decide⟩

/-- C4, amended: an Update with neither description nor completed supplied
on an existing record succeeds and returns the record entirely unchanged —
including `updated_at`, which is NOT refreshed — and performs no provider
write (only the lookup read and the reload read). -/
theorem noop_update_returns_unchanged
    (store : Store) (now id : Nat) (t : Todo)
    (hfind : findById store id = some t) :
    todoService.Update store now id none none
      = (.ok t, store, [PEvent.read, PEvent.read]) := by
  simp [todoService.Update, hfind]

/-- Witness for `noop_update_returns_unchanged` on a one-record store. -/
theorem noop_update_returns_unchanged_witness :
    todoService.Update [⟨3, ['a'], true, 2, 5⟩] 9 3 none none
      = (.ok ⟨3, ['a'], true, 2, 5⟩, [⟨3, ['a'], true, 2, 5⟩],
         [PEvent.read, PEvent.read]) :=
  noop_update_returns_unchanged [⟨3, ['a'], true, 2, 5⟩] 9 3
    ⟨3, ['a'], true, 2, 5⟩ (by decide)

/-- C5: on an existing record, an Update supplying an invalid description
(trimmed form empty, or over 500 UTF-8 bytes) fails with the corresponding
validation error, leaves the store — and hence the record's fields and
`updated_at` — completely unchanged, and never applies a simultaneously
supplied completed value. -/
theorem update_invalid_description_atomic
    (store : Store) (now id : Nat) (t : Todo) (d : List Char) (c : Option Bool)
    (hfind : findById store id = some t)
    (hbad : trimSpace d = [] ∨ 500 < utf8Len (trimSpace d)) :
    (todoService.Update store now id (some d) c).1
        = .error (if trimSpace d = [] then ServiceError.emptyDescription
                  else ServiceError.descriptionTooLong)
    ∧ (todoService.Update store now id (some d) c).2.1 = store := by
  by_cases h1 : trimSpace d = []
  · have e1 : (trimSpace d).isEmpty = true := by simp [List.isEmpty_iff, h1]
    constructor <;> simp [todoService.Update, hfind, e1, h1]
  · have e1 : (trimSpace d).isEmpty = false := by
      simpa [List.isEmpty_iff] using h1
    have h2 : 500 < utf8Len (trimSpace d) := hbad.resolve_left h1
    constructor <;> simp [todoService.Update, hfind, e1, h1, h2]

/-- Witness for `update_invalid_description_atomic`: supplying a
whitespace-only description together with `completed = true` fails with
EmptyDescription and changes nothing. -/
theorem update_invalid_description_atomic_witness :
    (todoService.Update [⟨0, ['h', 'i'], false, 1, 1⟩] 9 0
        (some [' ', ' ']) (some true)).1
        = .error (if trimSpace [' ', ' '] = [] then ServiceError.emptyDescription
                  else ServiceError.descriptionTooLong)
    ∧ (todoService.Update [⟨0, ['h', 'i'], false, 1, 1⟩] 9 0
        (some [' ', ' ']) (some true)).2.1
        = [⟨0, ['h', 'i'], false, 1, 1⟩] :=
  update_invalid_description_atomic [⟨0, ['h', 'i'], false, 1, 1⟩] 9 0
    ⟨0, ['h', 'i'], false, 1, 1⟩ [' ', ' '] (some true)
    (by decide) (Or.inl (by decide))

/-- C6: Delete succeeds exactly once — on a store containing the
identifier the first Delete succeeds and an immediately repeated Delete of
the same identifier on the resulting store fails with NotFound; and on a
store without the identifier Delete never reports success, failing with
NotFound. -/
theorem delete_exactly_once (store : Store) (id : Nat) :
    ((∃ t, findById store id = some t) →
        (todoService.Delete store id).1 = .ok ()
        ∧ (todoService.Delete (todoService.Delete store id).2.1 id).1
            = .error .todoNotFound)
    ∧ (findById store id = none →
        (todoService.Delete store id).1 = .error .todoNotFound) := by
  constructor
  · rintro ⟨t, hfind⟩
    have hfind' : store.find? (fun t => t.id == id) = some t := hfind
    have hmem := List.mem_of_find?_eq_some hfind'
    have hp := List.find?_some hfind'
    have hpos : 0 < store.countP (fun t => t.id == id) :=
      List.countP_pos_iff.mpr ⟨t, hmem, hp⟩
    have hne : ¬ store.countP (fun t => t.id == id) = 0 :=
      Nat.pos_iff_ne_zero.mp hpos
    constructor
    · simp [todoService.Delete, hne]
    · have hzero :
          (store.filter (fun t => !(t.id == id))).countP (fun t => t.id == id) = 0 := by
        rw [List.countP_eq_zero]
        intro a ha
        have := (List.mem_filter.mp ha).2
        simpa using this
      simp [todoService.Delete, hne, hzero]
  · intro hnone
    have hall := List.find?_eq_none.mp hnone
    have hzero : store.countP (fun t => t.id == id) = 0 :=
      List.countP_eq_zero.mpr hall
    simp [todoService.Delete, hzero]

/-- Witness for `delete_exactly_once`: both branches at concrete stores. -/
theorem delete_exactly_once_witness :
    ((todoService.Delete [⟨0, ['a'], false, 0, 0⟩] 0).1 = .ok ()
      ∧ (todoService.Delete
            (todoService.Delete [⟨0, ['a'], false, 0, 0⟩] 0).2.1 0).1
          = .error .todoNotFound)
    ∧ (todoService.Delete ([] : Store) 1).1 = .error .todoNotFound :=
  ⟨(delete_exactly_once [⟨0, ['a'], false, 0, 0⟩] 0).1
      ⟨⟨0, ['a'], false, 0, 0⟩, by decide⟩,
   (delete_exactly_once ([] : Store) 1).2 (by decide)⟩

/-- C7: the List response reports an effective limit equal to the request
limit clamped into [1, 100] — non-positive input becomes 20, input above
100 becomes 100, never rejected — and an effective offset equal to the
request offset with negative values replaced by 0; the reported values
always satisfy the bounds. -/
theorem list_clamps_limit_and_offset
    (store : Store) (limit offset : Int) (f : Option Bool) :
    (limit ≤ 0 → (todoService.List store limit offset f).1.limit = 20)
    ∧ (0 < limit → limit ≤ 100 →
        (todoService.List store limit offset f).1.limit = limit)
    ∧ (100 < limit → (todoService.List store limit offset f).1.limit = 100)
    ∧ (offset < 0 → (todoService.List store limit offset f).1.offset = 0)
    ∧ (0 ≤ offset → (todoService.List store limit offset f).1.offset = offset)
    ∧ 1 ≤ (todoService.List store limit offset f).1.limit
    ∧ (todoService.List store limit offset f).1.limit ≤ 100
    ∧ 0 ≤ (todoService.List store limit offset f).1.offset := by
  refine ⟨?_, ?_, ?_, ?_, ?_, ?_, ?_, ?_⟩ <;>
    · intros
      simp only [todoService.List]
      split_ifs <;> omega

/-- Witness for `list_clamps_limit_and_offset`, exercising the negative
and the over-100 branches. -/
theorem list_clamps_limit_and_offset_witness :
    (todoService.List ([] : Store) (-7) (-3) none).1.limit = 20
    ∧ (todoService.List ([] : Store) (-7) (-3) none).1.offset = 0
    ∧ (todoService.List ([] : Store) 250 4 none).1.limit = 100
    ∧ (todoService.List ([] : Store) 250 4 none).1.offset = 4 :=
  ⟨(list_clamps_limit_and_offset ([] : Store) (-7) (-3) none).1 (by decide),
   (list_clamps_limit_and_offset ([] : Store) (-7) (-3) none).2.2.2.1 (by decide),
   (list_clamps_limit_and_offset ([] : Store) 250 4 none).2.2.1 (by decide),
   (list_clamps_limit_and_offset ([] : Store) 250 4 none).2.2.2.2.1 (by decide)⟩

/-- C8, counterexample: an Update on an existing record with a
whitespace-only description fails with EmptyDescription, yet its provider
trace is the non-empty `[read]` — the record lookup is issued before
validation runs, contradicting "no provider read or write is issued on a
call that fails validation". -/
theorem update_validation_after_read_counterexample :
    (todoService.Update [⟨0, ['h', 'i'], false, 1, 1⟩] 9 0 (some [' ']) none).1
        = .error .emptyDescription
    ∧ (todoService.Update [⟨0, ['h', 'i'], false, 1, 1⟩] 9 0 (some [' ']) none).2.2
        = [PEvent.read]
    ∧ ([PEvent.read] : List PEvent) ≠ [] := by
  refine ⟨rfl, rfl, by decide⟩

/-- C8, amended: a Create that fails validation issues no provider
interaction at all, and an Update given an invalid description issues no
provider write — only the single record-lookup read, which the code
performs before validating. -/
theorem validation_failure_no_provider_write
    (store : Store) (now freshId id : Nat) (d : List Char) (c : Option Bool)
    (hbad : trimSpace d = [] ∨ 500 < utf8Len (trimSpace d)) :
    (todoService.Create store now freshId d).2.2 = []
    ∧ (todoService.Update store now id (some d) c).2.2 = [PEvent.read] := by
  have hcases : (trimSpace d).isEmpty = true ∨
      ((trimSpace d).isEmpty = false ∧ 500 < utf8Len (trimSpace d)) := by
    rcases hbad with h | h
    · exact Or.inl (by simp [List.isEmpty_iff, h])
    · by_cases h0 : trimSpace d = []
      · exact absurd h (by simp [h0, utf8Len_nil])
      · exact Or.inr ⟨by simpa [List.isEmpty_iff] using h0, h⟩

  constructor
  · rcases hcases with h | ⟨h, h2⟩
    · simp [todoService.Create, h]
    · simp [todoService.Create, h, h2]
  · rcases hfind : findById store id with _ | t
    · simp [todoService.Update, hfind]
    · rcases hcases with h | ⟨h, h2⟩
      · simp [todoService.Update, hfind, h]
      · simp [todoService.Update, hfind, h, h2]

/-- Witness for `validation_failure_no_provider_write` with a
whitespace-only description. -/
theorem validation_failure_no_provider_write_witness :
    (todoService.Create [⟨0, ['a'], false, 0, 0⟩] 1 1 ['\t']).2.2 = []
    ∧ (todoService.Update [⟨0, ['a'], false, 0, 0⟩] 1 0
          (some ['\t']) (some true)).2.2 = [PEvent.read] :=
  validation_failure_no_provider_write [⟨0, ['a'], false, 0, 0⟩] 1 1 0
    ['\t'] (some true) (Or.inl (by decide))

theorem storeWF_create (store : Store) (now freshId : Nat) (d : List Char)
    (hwf : storeWF store) :
    storeWF (todoService.Create store now freshId d).2.1 := by
  by_cases h1 : trimSpace d = []
  · have e1 : (trimSpace d).isEmpty = true := by simp [List.isEmpty_iff, h1]
    simpa [todoService.Create, e1] using hwf
  · have e1 : (trimSpace d).isEmpty = false := by
      simpa [List.isEmpty_iff] using h1
    by_cases h2 : 500 < utf8Len (trimSpace d)
    · simpa [todoService.Create, e1, h2] using hwf
    · simp only [todoService.Create, e1, Bool.false_eq_true, if_false, h2, if_true]
      intro t ht
      rcases List.mem_cons.mp ht with rfl | hmem
      · exact ⟨trimSpace_idem d, h1, Nat.not_lt.mp h2⟩
      · exact hwf t hmem

theorem storeWF_map_update (store : Store) (now id : Nat)
    (descU : Option (List Char)) (c : Option Bool)
    (hdescU : descU = none ∨ ∃ d0, descU = some (trimSpace d0)
        ∧ trimSpace d0 ≠ [] ∧ utf8Len (trimSpace d0) ≤ 500)
    (hwf : storeWF store) :
    storeWF (store.map (fun t =>
      if t.id == id then
        { t with description := descU.getD t.description,
                 completed := c.getD t.completed, updatedAt := now }
      else t)) := by
  intro t ht
  rcases List.mem_map.mp ht with ⟨t0, ht0, rfl⟩
  by_cases hid : (t0.id == id) = true
  · simp only [hid, if_true]
    rcases hdescU with rfl | ⟨d0, rfl, hne, hle⟩
    · simpa using hwf t0 ht0
    · exact ⟨trimSpace_idem d0, hne, hle⟩
  · simp only [hid, Bool.false_eq_true, if_false]
    exact hwf t0 ht0

theorem storeWF_update (store : Store) (now id : Nat)
    (d : Option (List Char)) (c : Option Bool) (hwf : storeWF store) :
    storeWF (todoService.Update store now id d c).2.1 := by
  rcases hfind : findById store id with _ | t0
  · simpa [todoService.Update, hfind] using hwf
  · rcases d with _ | d0
    · rcases c with _ | b
      · simpa [todoService.Update, hfind] using hwf
      · simp only [todoService.Update, hfind]
        split
        · exact storeWF_map_update store now id none (some b) (Or.inl rfl) hwf
        · exact storeWF_map_update store now id none (some b) (Or.inl rfl) hwf
    · by_cases h1 : trimSpace d0 = []
      · have e1 : (trimSpace d0).isEmpty = true := by simp [List.isEmpty_iff, h1]
        simpa [todoService.Update, hfind, e1] using hwf
      · have e1 : (trimSpace d0).isEmpty = false := by
          simpa [List.isEmpty_iff] using h1
        by_cases h2 : 500 < utf8Len (trimSpace d0)
        · simpa [todoService.Update, hfind, e1, h2] using hwf
        · have hval : descriptionWF (trimSpace d0) :=
            ⟨trimSpace_idem d0, h1, Nat.not_lt.mp h2⟩
          simp only [todoService.Update, hfind, e1, Bool.false_eq_true, if_false,
            h2, if_true]
          split
          · exact storeWF_map_update store now id (some (trimSpace d0)) c
              (Or.inr ⟨d0, rfl, h1, Nat.not_lt.mp h2⟩) hwf
          · exact storeWF_map_update store now id (some (trimSpace d0)) c
              (Or.inr ⟨d0, rfl, h1, Nat.not_lt.mp h2⟩) hwf

theorem storeWF_delete (store : Store) (id : Nat) (hwf : storeWF store) :
    storeWF (todoService.Delete store id).2.1 := by
  intro t ht
  refine hwf t ?_
  by_cases h : store.countP (fun x => x.id == id) = 0
  · simp [todoService.Delete, h, List.mem_filter] at ht
    exact ht.1
  · simp [todoService.Delete, h, List.mem_filter] at ht
    exact ht.1

/-- C9: every mutating operation preserves the store invariant that each
stored record's description is already trimmed (removing leading/trailing
Unicode whitespace leaves it unchanged), non-empty, and at most 500 UTF-8
bytes — Create and Update only ever write trimmed, bounded descriptions,
and Delete only removes records. -/
theorem operations_preserve_storeWF
    (store : Store) (now freshId id : Nat) (dCreate : List Char)
    (dUpdate : Option (List Char)) (c : Option Bool)
    (hwf : storeWF store) :
    storeWF (todoService.Create store now freshId dCreate).2.1
    ∧ storeWF (todoService.Update store now id dUpdate c).2.1
    ∧ storeWF (todoService.Delete store id).2.1 :=
  ⟨storeWF_create store now freshId dCreate hwf,
   storeWF_update store now id dUpdate c hwf,
   storeWF_delete store id hwf⟩

/-- Witness for `operations_preserve_storeWF`: a singleton store holding a
well-formed record, a Create of `" x "`, an Update writing `" y "` plus a
completion toggle, and a Delete. -/
theorem operations_preserve_storeWF_witness :
    storeWF (todoService.Create [⟨0, ['a'], false, 0, 0⟩] 1 1
        [' ', 'x', ' ']).2.1
    ∧ storeWF (todoService.Update [⟨0, ['a'], false, 0, 0⟩] 1 0
        (some [' ', 'y', ' ']) (some true)).2.1
    ∧ storeWF (todoService.Delete [⟨0, ['a'], false, 0, 0⟩] 0).2.1 :=
  operations_preserve_storeWF [⟨0, ['a'], false, 0, 0⟩] 1 1 0
    [' ', 'x', ' '] (some [' ', 'y', ' ']) (some true)
    (by
      intro t ht
      rw [List.mem_singleton] at ht
      subst ht
      exact ⟨by decide, by decide, by decide⟩)

/-- C10: the HTTP List handler ignores malformed query parameters — a
`limit` or `offset` that does not scan as an integer leaves the defaults
20 and 0 in place, a `completed` value other than exactly "true" or
"false" yields no filter, and the handler never turns a malformed query
into an error response. -/
theorem list_handler_ignores_malformed_query
    (store : Store) (limitStr offsetStr completedStr : String) :
    (sscanfInt32 limitStr = none →
        (TodoHandler.listRequestOfQuery limitStr offsetStr completedStr).limit = 20)
    ∧ (sscanfInt32 offsetStr = none →
        (TodoHandler.listRequestOfQuery limitStr offsetStr completedStr).offset = 0)
    ∧ (completedStr ≠ "true" → completedStr ≠ "false" →
        (TodoHandler.listRequestOfQuery limitStr offsetStr completedStr).completed
          = none)
    ∧ ∃ resp, TodoHandler.List store limitStr offsetStr completedStr = .ok resp := by
  refine ⟨?_, ?_, ?_, ⟨_, rfl⟩⟩
  · intro h
    by_cases he : limitStr = "" <;>
      simp [TodoHandler.listRequestOfQuery, he, h]
  · intro h
    by_cases he : offsetStr = "" <;>
      simp [TodoHandler.listRequestOfQuery, he, h]
  · intro h1 h2
    by_cases he : completedStr = "" <;>
      simp [TodoHandler.listRequestOfQuery, he, h1, h2]

/-- Witness for `list_handler_ignores_malformed_query` with the malformed
query string `?limit=abc&offset=x&completed=maybe`. -/
theorem list_handler_ignores_malformed_query_witness :
    (TodoHandler.listRequestOfQuery "abc" "x" "maybe").limit = 20
    ∧ (TodoHandler.listRequestOfQuery "abc" "x" "maybe").offset = 0
    ∧ (TodoHandler.listRequestOfQuery "abc" "x" "maybe").completed = none
    ∧ ∃ resp, TodoHandler.List ([] : Store) "abc" "x" "maybe" = .ok resp :=
  ⟨(list_handler_ignores_malformed_query ([] : Store) "abc" "x" "maybe").1
      (by decide),
   (list_handler_ignores_malformed_query ([] : Store) "abc" "x" "maybe").2.1
      (by decide),
   (list_handler_ignores_malformed_query ([] : Store) "abc" "x" "maybe").2.2.1
      (by decide) (by decide),
   (list_handler_ignores_malformed_query ([] : Store) "abc" "x" "maybe").2.2.2⟩

end Todo2
